import Mathlib

/-!
Verification of the yetty-client activation protocol core
(tools/yetty-client: core/base94.py, core/osc.py, main.py, plugins/).

Shallow embedding conventions:
* a Python str is a list of Unicode code points, `List Nat`;
* a Python bytes value is a `List Nat` with every element below 256;
* a Python function that can raise is embedded with `Option` or `Except`:
  `none` / `Except.error` marks the raised exception, identified in the
  doc comment of the embedding.
-/

/-- Code points of a Lean string literal, used to transcribe the Python
string literals of the source. -/
def lit (s : String) : List Nat :=
  s.toList.map Char.toNat

/-- Embedding of base94.encode: each byte v becomes the two code points
chr(33 + v div 94) and chr(33 + v mod 94). -/
def encode : List Nat → List Nat
  | [] => []
  | b :: rest => (33 + b / 94) :: (33 + b % 94) :: encode rest

/-- The pair values accumulated by the while loop of base94.decode:
for each pair of code points c1, c2 it records (c1 - 33) * 94 + (c2 - 33),
computed in Int because Python ord(c) - 33 can be negative.  The loop
guard i + 1 < len drops a trailing unpaired character. -/
def decodeVals : List Nat → List Int
  | c1 :: c2 :: rest => (((c1 : Int) - 33) * 94 + ((c2 : Int) - 33)) :: decodeVals rest
  | _ => []

/-- Embedding of the Python bytes(list) constructor: `none` is the
ValueError raised when an element is outside range(0, 256). -/
def pyBytes : List Int → Option (List Nat)
  | [] => some []
  | v :: rest =>
    if 0 ≤ v ∧ v < 256 then (pyBytes rest).map (fun l => v.toNat :: l)
    else none

/-- Embedding of base94.decode: pair values of the input, passed to the
bytes constructor.  `none` is the ValueError raised by bytes(result). -/
def decode (encoded : List Nat) : Option (List Nat) :=
  pyBytes (decodeVals encoded)

theorem decodeVals_encode (b : List Nat) (hb : ∀ v ∈ b, v < 256) :
    decodeVals (encode b) = b.map (fun v : Nat => (v : Int)) := by
  induction b with
  | nil => rfl
  | cons v rest ih =>
    have hrest : ∀ u ∈ rest, u < 256 := fun u hu => hb u (List.mem_cons_of_mem v hu)
    have hdm : 94 * (v / 94) + v % 94 = v := Nat.div_add_mod v 94
    simp only [encode, decodeVals, ih hrest, List.map_cons, List.cons.injEq, and_true]
    omega

theorem pyBytes_map_coe (b : List Nat) (hb : ∀ v ∈ b, v < 256) :
    pyBytes (b.map (fun v : Nat => (v : Int))) = some b := by
  induction b with
  | nil => rfl
  | cons v rest ih =>
    have hv : v < 256 := hb v (List.mem_cons_self v rest)
    have hrest : ∀ u ∈ rest, u < 256 := fun u hu => hb u (List.mem_cons_of_mem v hu)
    have h2 : (v : Int) < 256 := by exact_mod_cast hv
    simp [pyBytes, ih hrest, h2, Int.ofNat_nonneg]

/-- C1: for every byte sequence b (all elements below 256),
decode (encode b) = some b: the base94 codec round-trips exactly. -/
theorem base94_roundtrip (b : List Nat) (hb : ∀ v ∈ b, v < 256) :
    decode (encode b) = some b := by
  rw [decode, decodeVals_encode b hb, pyBytes_map_coe b hb]

/-- Witness for base94_roundtrip: the round trip at a concrete byte
sequence holding the boundary values 0, 65, 94 and 255, and at the empty
sequence via the same theorem. -/
theorem base94_roundtrip_witness :
    decode (encode [0, 65, 94, 255]) = some [0, 65, 94, 255] ∧
    decode (encode []) = some [] :=
  ⟨base94_roundtrip [0, 65, 94, 255] (by decide),
   base94_roundtrip [] (by decide)⟩

/-- C4: encode output has exactly twice the input length and all its code
points lie in the printable range 33 .. 126. -/
theorem encode_length_range (b : List Nat) (hb : ∀ v ∈ b, v < 256) :
    (encode b).length = 2 * b.length ∧
    ∀ c ∈ encode b, 33 ≤ c ∧ c ≤ 126 := by
  induction b with
  | nil => exact ⟨rfl, by simp [encode]⟩
  | cons v rest ih =>
    have hv : v < 256 := hb v (List.mem_cons_self v rest)
    have hrest : ∀ u ∈ rest, u < 256 := fun u hu => hb u (List.mem_cons_of_mem v hu)
    obtain ⟨hlen, hmem⟩ := ih hrest
    refine ⟨by simp [encode, hlen]; ring, ?_⟩
    intro c hc
    have hdiv : v / 94 ≤ 2 := by
      have : v / 94 ≤ 255 / 94 := Nat.div_le_div_right (Nat.le_of_lt_succ hv)
      omega
    have hmod : v % 94 < 94 := Nat.mod_lt v (by omega)
    simp only [encode, List.mem_cons] at hc
    rcases hc with h | h | h
    · omega
    · omega
    · exact hmem c h

/-- Witness for encode_length_range at the concrete bytes 0 and 255. -/
theorem encode_length_range_witness :
    (encode [0, 255]).length = 2 * [0, 255].length ∧
    ∀ c ∈ encode [0, 255], 33 ≤ c ∧ c ≤ 126 :=
  encode_length_range [0, 255] (by decide)

/-- C2 counterexample: the odd-length one-character input chr(33) does not
fail at all: decode returns the empty byte sequence (the loop guard
i + 1 < len skips the unpaired character), so decode does not fail with
FormatError on every odd-length input as the claim states.  No FormatError
class exists anywhere in the source. -/
theorem decode_odd_no_failure :
    [33].length % 2 = 1 ∧ decode [33] = some [] := by
  decide

theorem decodeVals_snoc :
    ∀ (s : List Nat), s.length % 2 = 0 → ∀ c, decodeVals (s ++ [c]) = decodeVals s
  | [], _, _ => rfl
  | [_], h, _ => by simp at h
  | a :: b :: rest, h, c => by
    have hr : rest.length % 2 = 0 := by
      simp only [List.length_cons] at h
      omega
    simp only [List.cons_append, decodeVals, List.append_eq, decodeVals_snoc rest hr c]

/-- C2 amended: decode never fails with FormatError (no such error exists
in the code).  On an input of odd length it silently ignores the final
character, returning the decode of the even-length front; and an input with
out-of-range characters is not rejected as such: byte construction either
raises ValueError (when a pair value leaves range(0, 256)) or returns a
byte sequence, as with the out-of-range pair chr(32), chr(200), whose pair
value is (-1) * 94 + 167 = 73. -/
theorem decode_lenient (s : List Nat) (c : Nat) (h : s.length % 2 = 0) :
    decode (s ++ [c]) = decode s ∧ decode [32, 200] = some [73] :=
  ⟨by simp only [decode, decodeVals_snoc s h c], by decide⟩

/-- Witness for decode_lenient at the even-length front chr(33) chr(33)
with trailing character chr(40). -/
theorem decode_lenient_witness :
    decode ([33, 33] ++ [40]) = decode [33, 33] ∧ decode [32, 200] = some [73] :=
  decode_lenient [33, 33] 40 (by decide)

/-- C9: the even-length input of two printable characters chr(126) chr(126)
has the single pair value 93 * 94 + 93 = 8835, which is outside
range(0, 256), so bytes(result) raises ValueError (decode = none): decode
is not total on even-length printable strings. -/
theorem decode_tilde_tilde_valueerror :
    [126, 126].length % 2 = 0 ∧
    (∀ c ∈ [126, 126], 33 ≤ c ∧ c ≤ 126) ∧
    decodeVals [126, 126] = [8835] ∧
    decode [126, 126] = none := by
  decide

/-- Embedding of the UTF-8 encoder applied by str.encode in
base94.encode_string: each code point below 0x110000 becomes 1 to 4
bytes.  `none` is the UnicodeEncodeError the strict utf-8 codec raises on
a lone surrogate (U+D800 to U+DFFF, 55296 to 57343); code points at or
above 0x110000 cannot occur in a Python str at all (chr rejects them), so
they are likewise mapped outside the success case. -/
def utf8EncodeChar (c : Nat) : Option (List Nat) :=
  if 55296 ≤ c ∧ c ≤ 57343 then none
  else if 1114112 ≤ c then none
  else if c < 128 then some [c]
  else if c < 2048 then some [192 + c / 64, 128 + c % 64]
  else if c < 65536 then some [224 + c / 4096, 128 + c / 64 % 64, 128 + c % 64]
  else some [240 + c / 262144, 128 + c / 4096 % 64, 128 + c / 64 % 64, 128 + c % 64]

/-- UTF-8 bytes of a string given as its code points; `none` when any
character raises UnicodeEncodeError. -/
def utf8Encode : List Nat → Option (List Nat)
  | [] => some []
  | c :: rest =>
    match utf8EncodeChar c, utf8Encode rest with
    | some bs, some tail => some (bs ++ tail)
    | _, _ => none

/-- Embedding of base94.encode_string: UTF-8 encode, then base94; `none`
propagates the UnicodeEncodeError of str.encode. -/
def encodeString (text : List Nat) : Option (List Nat) :=
  (utf8Encode text).map encode

/-- Decimal digit code points of n, most significant first, with the fuel
argument bounding the recursion depth; mirrors the Python str(int)
rendering of a nonnegative integer. -/
def natStrAux : Nat → Nat → List Nat
  | 0, _ => []
  | fuel + 1, n => if n < 10 then [48 + n] else natStrAux fuel (n / 10) ++ [48 + n % 10]

/-- Decimal rendering str(n) of a natural number as code points. -/
def natStr (n : Nat) : List Nat :=
  natStrAux (n + 1) n

/-- Decimal rendering str(x) of a Python int as code points: an optional
minus sign (code point 45) followed by the digits of the absolute value. -/
def intStr (x : Int) : List Nat :=
  if x < 0 then 45 :: natStr x.natAbs else natStr x.natAbs

/-- The protocol vendor id constant osc.VENDOR_ID. -/
def VENDOR_ID : Nat := 99999

/-- The Activate frame f-string shared by osc.create_sequence and the
payload_bytes branches of cmd_run and cmd_dump (identical format strings):
ESC ] VENDOR;plugin;mode;x;y;w;h;encoded_payload ESC backslash, applied to
an already-encoded payload.  Code point 27 is ESC, 93 the closing bracket,
59 the semicolon and 92 the backslash. -/
def activateFrame (plugin mode : List Nat) (x y w h : Int) (encPayload : List Nat) : List Nat :=
  [27, 93] ++ natStr VENDOR_ID ++ [59] ++ plugin ++ [59] ++ mode ++ [59] ++
    intStr x ++ [59] ++ intStr y ++ [59] ++ intStr w ++ [59] ++ intStr h ++ [59] ++
    encPayload ++ [27, 92]

/-- Embedding of osc.create_sequence: base94-encode the payload via
encode_string, then format the Activate frame; `none` propagates the
UnicodeEncodeError raised inside encode_string before any frame is
built. -/
def createSequence (plugin mode : List Nat) (x y w h : Int) (payload : List Nat) :
    Option (List Nat) :=
  (encodeString payload).map (activateFrame plugin mode x y w h)

/-- Embedding of the str.replace call in osc.wrap_for_tmux: every ESC
(code point 27) is doubled; a single-character pattern makes replace act
pointwise. -/
def escDouble : List Nat → List Nat
  | [] => []
  | c :: rest => if c = 27 then 27 :: 27 :: escDouble rest else c :: escDouble rest

/-- The DCS passthrough header ESC P t m u x semicolon of
osc.wrap_for_tmux. -/
def dcsHeader : List Nat := [27, 80, 116, 109, 117, 120, 59]

/-- The string terminator ESC backslash. -/
def stTerm : List Nat := [27, 92]

/-- Embedding of osc.wrap_for_tmux: header, content with doubled ESC,
terminator. -/
def wrapForTmux (sequence : List Nat) : List Nat :=
  dcsHeader ++ escDouble sequence ++ stTerm

/-- Embedding of osc.maybe_wrap_for_tmux, with the TMUX environment
variable presence passed explicitly. -/
def maybeWrapForTmux (insideTmux : Bool) (sequence : List Nat) : List Nat :=
  if insideTmux then wrapForTmux sequence else sequence

/-- C5: wrap_for_tmux s is exactly the multiplexer header, then s with
every ESC byte doubled, then the standard terminator; in particular its
first 7 code points are the header and its last 2 the terminator. -/
theorem wrapForTmux_shape (s : List Nat) :
    wrapForTmux s = dcsHeader ++ escDouble s ++ stTerm ∧
    (wrapForTmux s).take 7 = dcsHeader ∧
    (wrapForTmux s).drop ((wrapForTmux s).length - 2) = stTerm := by
  refine ⟨rfl, ?_, ?_⟩
  · simp [wrapForTmux, dcsHeader]
  · have hlen : (wrapForTmux s).length - 2 = (dcsHeader ++ escDouble s).length := by
      simp [wrapForTmux, dcsHeader, stTerm]
    rw [hlen]
    simp [wrapForTmux, List.append_assoc]

/-- Embedding of content.rstrip of CR and LF in cmd_decode: trailing
code points 13 and 10 are removed. -/
def rstripCRLF (s : List Nat) : List Nat :=
  (s.reverse.dropWhile (fun c => c == 13 || c == 10)).reverse

/-- Embedding of Python str.startswith for the prefixes checked by
cmd_decode. -/
def startsWithSeq (pat s : List Nat) : Bool :=
  decide (s.take pat.length = pat)

/-- Embedding of Python str.endswith for the terminators checked by
cmd_decode. -/
def endsWithSeq (pat s : List Nat) : Bool :=
  decide (s.drop (s.length - pat.length) = pat)

/-- Embedding of the Python negative-index slices content[:-n] used by
cmd_decode when stripping a terminator. -/
def dropLastN (n : Nat) (s : List Nat) : List Nat :=
  s.take (s.length - n)

/-- Text before the first semicolon (code point 59) and text after it, or
`none` when there is no semicolon; the elementary step of Python
str.split with a bound. -/
def splitSemFirst : List Nat → Option (List Nat × List Nat)
  | [] => none
  | c :: rest =>
    if c = 59 then some ([], rest)
    else
      match splitSemFirst rest with
      | none => none
      | some (a, b) => some (c :: a, b)

/-- Embedding of Python content.split(";", maxsplit): at most maxsplit
splits, the remainder kept whole as the last part. -/
def splitSem : Nat → List Nat → List (List Nat)
  | 0, s => [s]
  | maxsplit + 1, s =>
    match splitSemFirst s with
    | none => [s]
    | some (a, rest) => a :: splitSem maxsplit rest

/-- The eight fields unpacked by cmd_decode from an Activate frame. -/
structure Frame where
  vendor : List Nat
  plugin : List Nat
  mode : List Nat
  xs : List Nat
  ys : List Nat
  ws : List Nat
  hs : List Nat
  enc : List Nat
deriving DecidableEq

/-- Embedding of the field phase of cmd_decode (after terminator strip and
its leading ESC-bracket strip): split on semicolons bounded to 7, require 8
parts, require the vendor id field to equal str(VENDOR_ID).  The error
values carry the ClickException messages. -/
def parseBody (c : List Nat) : Except (List Nat) Frame :=
  match splitSem 7 c with
  | [v, p, m, x, y, w, hh, e] =>
    if v = natStr VENDOR_ID then Except.ok ⟨v, p, m, x, y, w, hh, e⟩
    else Except.error (lit "Unknown vendor ID: " ++ v ++ lit " (expected " ++
      natStr VENDOR_ID ++ lit ")")
  | parts => Except.error (lit "Invalid OSC sequence: expected 8 parts, got " ++
      natStr parts.length)

/-- Embedding of the strip-and-parse phase of cmd_decode: strip trailing
CR and LF, strip one terminator (BEL, or ESC backslash), strip one leading
ESC-bracket (or bare bracket), then parse the fields. -/
def parseContent (content : List Nat) : Except (List Nat) Frame :=
  let c1 := rstripCRLF content
  let c2 := if endsWithSeq [7] c1 then dropLastN 1 c1
            else if endsWithSeq [27, 92] c1 then dropLastN 2 c1
            else c1
  if startsWithSeq [27, 93] c2 then parseBody (c2.drop 2)
  else if startsWithSeq [93] c2 then parseBody (c2.drop 1)
  else Except.error (lit "Invalid yetty file: expected OSC sequence starting with ESC ]")

theorem rstripCRLF_snoc (a : List Nat) (c : Nat) (h1 : c ≠ 13) (h2 : c ≠ 10) :
    rstripCRLF (a ++ [c]) = a ++ [c] := by
  simp [rstripCRLF, List.dropWhile_cons, h1, h2]

theorem rstrip_two (X : List Nat) (a b : Nat) (h1 : b ≠ 13) (h2 : b ≠ 10) :
    rstripCRLF (X ++ [a, b]) = X ++ [a, b] := by
  have e : X ++ [a, b] = (X ++ [a]) ++ [b] := by simp
  rw [e, rstripCRLF_snoc _ _ h1 h2]

theorem endsWith_two (X : List Nat) (a b : Nat) :
    endsWithSeq [a, b] (X ++ [a, b]) = true := by
  have hlen : (X ++ [a, b]).length - 2 = X.length := by simp
  simp [endsWithSeq, hlen, List.drop_left]

theorem endsWith_bel_false (X : List Nat) (a b : Nat) (hb : b ≠ 7) :
    endsWithSeq [7] (X ++ [a, b]) = false := by
  have e : X ++ [a, b] = (X ++ [a]) ++ [b] := by simp
  have hlen : ((X ++ [a]) ++ [b]).length - 1 = (X ++ [a]).length := by simp
  rw [e]
  simp [endsWithSeq, hlen, List.drop_left, hb]

theorem dropLast_two (X : List Nat) (a b : Nat) :
    dropLastN 2 (X ++ [a, b]) = X := by
  have hlen : (X ++ [a, b]).length - 2 = X.length := by simp
  simp [dropLastN, hlen, List.take_left]

theorem splitSemFirst_nosep (a rest : List Nat) (h : 59 ∉ a) :
    splitSemFirst (a ++ 59 :: rest) = some (a, rest) := by
  induction a with
  | nil => simp [splitSemFirst]
  | cons c tl ih =>
    have hc : c ≠ 59 := fun e => h (e ▸ List.mem_cons_self c tl)
    have htl : 59 ∉ tl := fun hm => h (List.mem_cons_of_mem c hm)
    simp [splitSemFirst, hc, ih htl]

theorem splitSem_sep (k : Nat) (a rest : List Nat) (h : 59 ∉ a) :
    splitSem (k + 1) (a ++ 59 :: rest) = a :: splitSem k rest := by
  simp [splitSem, splitSemFirst_nosep a rest h]

theorem natStrAux_digits :
    ∀ (fuel n : Nat), ∀ c ∈ natStrAux fuel n, 48 ≤ c ∧ c ≤ 57 := by
  intro fuel
  induction fuel with
  | zero => intro n c hc; simp [natStrAux] at hc
  | succ f ih =>
    intro n c hc
    by_cases h : n < 10
    · simp [natStrAux, h] at hc
      omega
    · simp only [natStrAux, if_neg h, List.mem_append, List.mem_singleton] at hc
      rcases hc with hc | hc
      · exact ih _ c hc
      · have : n % 10 < 10 := Nat.mod_lt _ (by omega)
        omega

theorem natStr_no_semi (n : Nat) : 59 ∉ natStr n := by
  intro hmem
  have := natStrAux_digits (n + 1) n 59 hmem
  omega

theorem intStr_no_semi (x : Int) : 59 ∉ intStr x := by
  intro hmem
  unfold intStr at hmem
  by_cases hx : x < 0
  · simp only [if_pos hx, List.mem_cons] at hmem
    rcases hmem with h | h
    · omega
    · exact natStr_no_semi _ h
  · simp only [if_neg hx] at hmem
    exact natStr_no_semi _ hmem

theorem dropLast_two_cons (B : List Nat) :
    dropLastN 2 (27 :: 93 :: (B ++ [27, 92])) = 27 :: 93 :: B := by
  have h := dropLast_two ([27, 93] ++ B) 27 92
  simpa using h

theorem parseContent_wrap (B : List Nat) :
    parseContent (([27, 93] ++ B) ++ [27, 92]) = parseBody B := by
  simp only [parseContent]
  rw [rstrip_two ([27, 93] ++ B) 27 92 (by decide) (by decide),
      endsWith_bel_false ([27, 93] ++ B) 27 92 (by decide),
      endsWith_two ([27, 93] ++ B) 27 92]
  simp [dropLast_two_cons, startsWithSeq]

theorem utf8EncodeChar_lt (c : Nat) (bs : List Nat) (h : utf8EncodeChar c = some bs) :
    ∀ v ∈ bs, v < 256 := by
  intro v hv
  unfold utf8EncodeChar at h
  split_ifs at h with hs hr h1 h2 h3
  · obtain rfl : [c] = bs := Option.some.inj h
    simp at hv
    omega
  · obtain rfl : [192 + c / 64, 128 + c % 64] = bs := Option.some.inj h
    have hd : c / 64 < 32 := Nat.div_lt_of_lt_mul (by omega)
    have hm : c % 64 < 64 := Nat.mod_lt _ (by omega)
    simp at hv
    rcases hv with rfl | rfl <;> omega
  · obtain rfl : [224 + c / 4096, 128 + c / 64 % 64, 128 + c % 64] = bs :=
      Option.some.inj h
    have hd : c / 4096 < 16 := Nat.div_lt_of_lt_mul (by omega)
    have hm1 : c / 64 % 64 < 64 := Nat.mod_lt _ (by omega)
    have hm : c % 64 < 64 := Nat.mod_lt _ (by omega)
    simp at hv
    rcases hv with rfl | rfl | rfl <;> omega
  · obtain rfl : [240 + c / 262144, 128 + c / 4096 % 64, 128 + c / 64 % 64,
        128 + c % 64] = bs := Option.some.inj h
    have hd : c / 262144 < 5 := Nat.div_lt_of_lt_mul (by omega)
    have hm2 : c / 4096 % 64 < 64 := Nat.mod_lt _ (by omega)
    have hm1 : c / 64 % 64 < 64 := Nat.mod_lt _ (by omega)
    have hm : c % 64 < 64 := Nat.mod_lt _ (by omega)
    simp at hv
    rcases hv with rfl | rfl | rfl | rfl <;> omega

theorem utf8Encode_lt (s : List Nat) :
    ∀ bs, utf8Encode s = some bs → ∀ v ∈ bs, v < 256 := by
  induction s with
  | nil =>
    intro bs h v hv
    simp only [utf8Encode, Option.some.injEq] at h
    subst h
    simp at hv
  | cons c rest ih =>
    intro bs h v hv
    simp only [utf8Encode] at h
    cases hc : utf8EncodeChar c with
    | none => rw [hc] at h; simp at h
    | some cb =>
      cases ht : utf8Encode rest with
      | none => rw [hc, ht] at h; simp at h
      | some tb =>
        rw [hc, ht] at h
        simp only [Option.bind_some, Option.map_some, Option.some.injEq] at h
        subst h
        rcases List.mem_append.1 hv with hv1 | hv2
        · exact utf8EncodeChar_lt c cb hc v hv1
        · exact ih tb ht v hv2

/-- C3 amended: for a payload string whose UTF-8 encoding succeeds (no
lone surrogate — otherwise create_sequence raises UnicodeEncodeError
inside encode_string and no frame is built), and a plugin name and mode
containing no semicolon (code point 59), create_sequence returns the
Activate frame, parsing that frame with the cmd_decode algorithm recovers
the vendor id, the plugin name, the mode, the decimal renderings of
x, y, w, h, and the encoded payload field intact (even when the encoded
payload contains semicolons), and base94-decoding that field recovers the
payload bytes exactly.  A semicolon inside the plugin name or mode shifts
the bounded split and the original fields are not recovered. -/
theorem activate_roundtrip (plugin mode : List Nat) (x y w h : Int)
    (payload bs : List Nat) (hp : 59 ∉ plugin) (hm : 59 ∉ mode)
    (henc : utf8Encode payload = some bs) :
    createSequence plugin mode x y w h payload =
      some (activateFrame plugin mode x y w h (encode bs)) ∧
    parseContent (activateFrame plugin mode x y w h (encode bs)) =
      Except.ok ⟨natStr VENDOR_ID, plugin, mode,
        intStr x, intStr y, intStr w, intStr h, encode bs⟩ ∧
    decode (encode bs) = some bs := by
  refine ⟨?_, ?_, ?_⟩
  · simp [createSequence, encodeString, henc]
  · have hshape : activateFrame plugin mode x y w h (encode bs) =
        ([27, 93] ++ (natStr VENDOR_ID ++ 59 :: (plugin ++ 59 :: (mode ++ 59 ::
          (intStr x ++ 59 :: (intStr y ++ 59 :: (intStr w ++ 59 ::
          (intStr h ++ 59 :: encode bs)))))))) ++ [27, 92] := by
      simp [activateFrame]
    rw [hshape, parseContent_wrap]
    have hsplit : splitSem 7 (natStr VENDOR_ID ++ 59 :: (plugin ++ 59 :: (mode ++ 59 ::
        (intStr x ++ 59 :: (intStr y ++ 59 :: (intStr w ++ 59 ::
        (intStr h ++ 59 :: encode bs))))))) =
        [natStr VENDOR_ID, plugin, mode, intStr x, intStr y, intStr w, intStr h,
         encode bs] := by
      rw [splitSem_sep 6 _ _ (natStr_no_semi VENDOR_ID),
          splitSem_sep 5 _ _ hp,
          splitSem_sep 4 _ _ hm,
          splitSem_sep 3 _ _ (intStr_no_semi x),
          splitSem_sep 2 _ _ (intStr_no_semi y),
          splitSem_sep 1 _ _ (intStr_no_semi w),
          splitSem_sep 0 _ _ (intStr_no_semi h)]
      rfl
    simp [parseBody, hsplit]
  · exact base94_roundtrip bs (utf8Encode_lt payload bs henc)

/-- Witness for activate_roundtrip: the frame for plugin shader, mode R,
position 0 0, size 40 20 and text payload test (code points
116 101 115 116, whose UTF-8 bytes are the same values) round-trips. -/
theorem activate_roundtrip_witness :
    createSequence [115, 104, 97, 100, 101, 114] [82] 0 0 40 20
        [116, 101, 115, 116] =
      some (activateFrame [115, 104, 97, 100, 101, 114] [82] 0 0 40 20
        (encode [116, 101, 115, 116])) ∧
    parseContent (activateFrame [115, 104, 97, 100, 101, 114] [82] 0 0 40 20
        (encode [116, 101, 115, 116])) =
      Except.ok ⟨natStr VENDOR_ID, [115, 104, 97, 100, 101, 114], [82],
        intStr 0, intStr 0, intStr 40, intStr 20, encode [116, 101, 115, 116]⟩ ∧
    decode (encode [116, 101, 115, 116]) = some [116, 101, 115, 116] :=
  activate_roundtrip [115, 104, 97, 100, 101, 114] [82] 0 0 40 20
    [116, 101, 115, 116] [116, 101, 115, 116] (by decide) (by decide) (by decide)

/-- C3 counterexample: with the one-character plugin name that is itself a
semicolon (code point 59), mode R, position 0 0, size 40 20 and the empty
payload, the frame is built and parsing it succeeds, but it recovers the
empty plugin name instead of the original: the claim quantifies over every
plugin name, and fails for names containing the separator. -/
theorem activate_roundtrip_cx :
    (createSequence [59] [82] 0 0 40 20 []).bind
        (fun fr => (parseContent fr).toOption.map Frame.plugin) = some [] ∧
    ([] : List Nat) ≠ [59] := by
  constructor
  · rfl
  · decide

/-- The code points Python str.strip removes: the characters for which
str.isspace holds (ASCII whitespace, the C1 separators, NEL, NBSP and the
Unicode space separators). -/
def pySpaceChars : List Nat :=
  [9, 10, 11, 12, 13, 28, 29, 30, 31, 32, 133, 160, 5760,
   8192, 8193, 8194, 8195, 8196, 8197, 8198, 8199, 8200, 8201, 8202,
   8232, 8233, 8239, 8287, 12288]

/-- Whitespace test used by Python str.strip. -/
def pySpaceChar (c : Nat) : Bool :=
  decide (c ∈ pySpaceChars)

/-- Embedding of Python content.strip(): whitespace removed from both
ends. -/
def pyStrip (s : List Nat) : List Nat :=
  ((s.dropWhile pySpaceChar).reverse.dropWhile pySpaceChar).reverse

/-- Embedding of the Python substring test (pat in s). -/
def containsSeq (pat : List Nat) : List Nat → Bool
  | [] => decide (pat = [])
  | c :: rest => startsWithSeq pat (c :: rest) || containsSeq pat rest

/-- Code points of the content-type names and suffixes tested by the
thorvg producer: svg. -/
def strSvg : List Nat := [115, 118, 103]

/-- Code points of lottie. -/
def strLottie : List Nat := [108, 111, 116, 116, 105, 101]

/-- Code points of yaml. -/
def strYaml : List Nat := [121, 97, 109, 108]

/-- Code points of the suffix .svg. -/
def sufSvg : List Nat := [46, 115, 118, 103]

/-- Code points of the suffix .json. -/
def sufJson : List Nat := [46, 106, 115, 111, 110]

/-- Code points of the suffix .lottie. -/
def sufLottie : List Nat := [46, 108, 111, 116, 116, 105, 101]

/-- Code points of the suffix .yaml. -/
def sufYaml : List Nat := [46, 121, 97, 109, 108]

/-- Code points of the suffix .yml. -/
def sufYml : List Nat := [46, 121, 109, 108]

/-- Code points of the XML declaration opener sniffed by the thorvg
producer (less-than, question mark, x, m, l). -/
def xmlDecl : List Nat := [60, 63, 120, 109, 108]

/-- Embedding of the content-type resolution of the auto-detect branch
of the thorvg producer: the lowercased file suffix is matched first; when it is
unrecognized, the stripped content is sniffed: type svg when it starts with
the less-than sign (code point 60) or its first 100 characters contain the
XML declaration opener; else lottie when it starts with the left brace
(code point 123); else yaml. -/
def thorvgDetect (suffix content : List Nat) : List Nat :=
  if suffix = sufSvg then strSvg
  else if suffix = sufJson ∨ suffix = sufLottie then strLottie
  else if suffix = sufYaml ∨ suffix = sufYml then strYaml
  else
    if startsWithSeq [60] (pyStrip content) ||
        containsSeq xmlDecl ((pyStrip content).take 100) then strSvg
    else if startsWithSeq [123] (pyStrip content) then strLottie
    else strYaml

/-- Embedding of the thorvg payload: detected type, newline, unmodified
content. -/
def thorvgPayload (suffix content : List Nat) : List Nat :=
  thorvgDetect suffix content ++ 10 :: content

theorem startsWith_single (c : Nat) (s : List Nat) :
    startsWithSeq [c] s = true ↔ s.head? = some c := by
  cases s <;> simp [startsWithSeq]

/-- C8 counterexample: with the unrecognized suffix .txt and the content
a space less-than question-mark x m l, the first non-whitespace character
of the content is the letter a (code point 97), neither the less-than sign
nor the left brace, so the claim predicts yaml; the code detects svg
because the XML declaration opener occurs within the first 100 characters
of the stripped content. -/
theorem thorvg_detect_cx :
    pyStrip [97, 32, 60, 63, 120, 109, 108] = [97, 32, 60, 63, 120, 109, 108] ∧
    (pyStrip [97, 32, 60, 63, 120, 109, 108]).head? = some 97 ∧
    thorvgDetect [46, 116, 120, 116] [97, 32, 60, 63, 120, 109, 108] = strSvg ∧
    strSvg ≠ strYaml := by
  decide

/-- C8 amended: for an unrecognized suffix the thorvg producer falls back
to content sniffing: svg when the stripped content starts with the
less-than sign or contains the XML declaration opener within its first 100
characters; otherwise lottie when it starts with the left brace; otherwise
yaml — and the payload is exactly the detected type, a newline, then the
unmodified content. -/
theorem thorvg_detect_spec (suffix content : List Nat)
    (hsuf : suffix ≠ sufSvg ∧ suffix ≠ sufJson ∧ suffix ≠ sufLottie ∧
      suffix ≠ sufYaml ∧ suffix ≠ sufYml) :
    thorvgPayload suffix content = thorvgDetect suffix content ++ 10 :: content ∧
    (containsSeq xmlDecl ((pyStrip content).take 100) = true →
      thorvgDetect suffix content = strSvg) ∧
    (containsSeq xmlDecl ((pyStrip content).take 100) = false →
      thorvgDetect suffix content =
        if (pyStrip content).head? = some 60 then strSvg
        else if (pyStrip content).head? = some 123 then strLottie
        else strYaml) := by
  obtain ⟨h1, h2, h3, h4, h5⟩ := hsuf
  refine ⟨rfl, ?_, ?_⟩
  · intro hX
    simp [thorvgDetect, h1, h2, h3, h4, h5, hX]
  · intro hX
    have e60 : (startsWithSeq [60] (pyStrip content) = true) =
        ((pyStrip content).head? = some 60) := propext (startsWith_single 60 _)
    have e123 : (startsWithSeq [123] (pyStrip content) = true) =
        ((pyStrip content).head? = some 123) := propext (startsWith_single 123 _)
    simp only [thorvgDetect, if_neg h1, if_neg (not_or.2 ⟨h2, h3⟩),
      if_neg (not_or.2 ⟨h4, h5⟩), hX, Bool.or_false, e60, e123]

/-- Witness for thorvg_detect_spec at the unrecognized suffix .txt and the
one-letter content a (code point 97): the payload shape holds and, the XML
opener being absent, the detected type follows the first character, here
yaml. -/
theorem thorvg_detect_spec_witness :
    thorvgPayload [46, 116, 120, 116] [97] =
      thorvgDetect [46, 116, 120, 116] [97] ++ 10 :: [97] ∧
    (containsSeq xmlDecl ((pyStrip [97]).take 100) = true →
      thorvgDetect [46, 116, 120, 116] [97] = strSvg) ∧
    (containsSeq xmlDecl ((pyStrip [97]).take 100) = false →
      thorvgDetect [46, 116, 120, 116] [97] =
        if (pyStrip [97]).head? = some 60 then strSvg
        else if (pyStrip [97]).head? = some 123 then strLottie
        else strYaml) :=
  thorvg_detect_spec [46, 116, 120, 116] [97]
    ⟨by decide, by decide, by decide, by decide, by decide⟩

/-- Embedding of the strict UTF-8 decoder used by bytes.decode in
cmd_decode: `none` is the UnicodeDecodeError raised on any invalid byte
sequence (bad lead byte, bad continuation range, truncation, overlong
form or surrogate). -/
def utf8Decode : List Nat → Option (List Nat)
  | [] => some []
  | b :: rest =>
    if b < 128 then (utf8Decode rest).map (fun l => b :: l)
    else if b < 194 then none
    else if b ≤ 223 then
      match rest with
      | b2 :: rest2 =>
        if 128 ≤ b2 ∧ b2 ≤ 191 then
          (utf8Decode rest2).map (fun l => ((b - 192) * 64 + (b2 - 128)) :: l)
        else none
      | [] => none
    else if b ≤ 239 then
      match rest with
      | b2 :: b3 :: rest3 =>
        if (if b = 224 then 160 ≤ b2 ∧ b2 ≤ 191
            else if b = 237 then 128 ≤ b2 ∧ b2 ≤ 159
            else 128 ≤ b2 ∧ b2 ≤ 191) ∧ 128 ≤ b3 ∧ b3 ≤ 191 then
          (utf8Decode rest3).map
            (fun l => ((b - 224) * 4096 + (b2 - 128) * 64 + (b3 - 128)) :: l)
        else none
      | _ => none
    else if b ≤ 244 then
      match rest with
      | b2 :: b3 :: b4 :: rest4 =>
        if (if b = 240 then 144 ≤ b2 ∧ b2 ≤ 191
            else if b = 244 then 128 ≤ b2 ∧ b2 ≤ 143
            else 128 ≤ b2 ∧ b2 ≤ 191) ∧
            128 ≤ b3 ∧ b3 ≤ 191 ∧ 128 ≤ b4 ∧ b4 ≤ 191 then
          (utf8Decode rest4).map
            (fun l => ((b - 240) * 262144 + (b2 - 128) * 4096 +
              (b3 - 128) * 64 + (b4 - 128)) :: l)
        else none
      | _ => none
    else none

/-- The context object fields a producer may set (ctx.obj of the click
command): payload (text, as code points), payload_bytes, plugin_name and
plugin_args; a field a producer does not set is `none`. -/
structure PluginObj where
  payload : Option (List Nat)
  payloadBytes : Option (List Nat)
  pluginName : Option (List Nat)
  pluginArgs : Option (List Nat)
deriving DecidableEq

/-- Embedding of click.echo: the message plus one newline. -/
def echoLine (s : List Nat) : List Nat :=
  s ++ [10]

/-- Observable effect of one command invocation: the chunks written to
standard output, the chunks written to the error stream, and the file
written, if any (path and content). -/
structure Eff where
  out : List (List Nat)
  err : List (List Nat)
  file : Option (List Nat × List Nat)
deriving DecidableEq

/-- Embedding of the sequence construction of cmd_run (main.py lines
136-140): when the producer set payload_bytes, an f-string (the same
format string as activateFrame) builds the frame around base94.encode of
those bytes, which cannot fail; otherwise osc.create_sequence is called on
the text payload, and `none` propagates its UnicodeEncodeError.
actual_plugin_name is the plugin_name override of the producer when
present, else the CLI lookup name. -/
def runBuildSeq (obj : PluginObj) (lookup mode : List Nat) (x y w h : Int) :
    Option (List Nat) :=
  match obj.payloadBytes with
  | some pb => some (activateFrame (obj.pluginName.getD lookup) mode x y w h (encode pb))
  | none => createSequence (obj.pluginName.getD lookup) mode x y w h (obj.payload.getD [])

/-- Embedding of the sequence construction of cmd_dump (main.py lines
219-223), textually identical to the one in cmd_run. -/
def dumpBuildSeq (obj : PluginObj) (lookup mode : List Nat) (x y w h : Int) :
    Option (List Nat) :=
  match obj.payloadBytes with
  | some pb => some (activateFrame (obj.pluginName.getD lookup) mode x y w h (encode pb))
  | none => createSequence (obj.pluginName.getD lookup) mode x y w h (obj.payload.getD [])

/-- Marker for the error-stream output of an uncaught UnicodeEncodeError
escaping cmd_run or cmd_dump (a surrogate in the text payload): the
interpreter prints a multi-line traceback whose exact text (file paths,
line numbers, the quoted character) is outside this embedding; no theorem
depends on this value. -/
def uncaughtUnicodeEncodeError : List Nat :=
  lit "UnicodeEncodeError: utf-8 codec cannot encode character: surrogates not allowed"

/-- Embedding of the emission phase of cmd_run (main.py lines 128-164),
after the producer has been invoked: the missing-payload ClickException,
the uncaught UnicodeEncodeError of a surrogate-bearing text payload
(raised inside the sequence construction, before any write), the dry-run
report (to standard output, with extra lines under verbose), or the frame
itself (tmux-wrapped when inside tmux) to standard output with the verbose
byte count on the error stream. -/
def cmdRun (verbose dryRun insideTmux : Bool) (lookup : List Nat) (obj : PluginObj)
    (mode : List Nat) (x y w h : Int) : Eff :=
  if obj.payload = none ∧ obj.payloadBytes = none then
    ⟨[], [echoLine (lit "Error: Plugin " ++ [39] ++ lookup ++ [39] ++
      lit " did not set a payload")], none⟩
  else
    match runBuildSeq obj lookup mode x y w h with
    | none => ⟨[], [uncaughtUnicodeEncodeError], none⟩
    | some sequence =>
      if dryRun then
        let line1 :=
          if insideTmux then
            lit "Would output OSC sequence (" ++ natStr sequence.length ++ lit " bytes, " ++
              natStr (wrapForTmux sequence).length ++ lit " with tmux wrapper)"
          else
            lit "Would output OSC sequence (" ++ natStr sequence.length ++ lit " bytes)"
        let vlines :=
          if verbose then
            [lit "Plugin: " ++ obj.pluginName.getD lookup,
             lit "Mode: " ++ mode ++ lit ", Position: (" ++ intStr x ++ [44] ++ intStr y ++
               lit "), Size: " ++ intStr w ++ [120] ++ intStr h] ++
            (match obj.payload with
             | some p =>
               if p ≠ [] then
                 [lit "Payload: " ++ p.take 100 ++
                   (if 100 < p.length then [46, 46, 46] else [])]
               else []
             | none => [])
          else []
        ⟨(line1 :: vlines).map echoLine, [], none⟩
      else
        let outSeq := maybeWrapForTmux insideTmux sequence
        let elines :=
          if verbose then
            if insideTmux then
              [lit "Sent " ++ natStr outSeq.length ++ lit " bytes (tmux passthrough)"]
            else
              [lit "Sent " ++ natStr sequence.length ++ lit " bytes"]
          else []
        ⟨[outSeq], elines.map echoLine, none⟩

set_option linter.unusedVariables false in
/-- Embedding of the emission phase of cmd_dump (main.py lines 211-236):
the insideTmux argument records the environment signal, which cmd_dump
never consults (it contains no maybe_wrap_for_tmux call); an uncaught
UnicodeEncodeError in the sequence construction (surrogate in the text
payload) escapes before anything is written; otherwise the default output
name is the CLI lookup name plus the suffix .osc (code points
46 111 115 99), and the unwrapped frame is written to that file. -/
def cmdDump (insideTmux dryRun : Bool) (lookup : List Nat) (obj : PluginObj)
    (output : Option (List Nat)) (mode : List Nat) (x y w h : Int) : Eff :=
  if obj.payload = none ∧ obj.payloadBytes = none then
    ⟨[], [echoLine (lit "Error: Plugin " ++ [39] ++ lookup ++ [39] ++
      lit " did not set a payload")], none⟩
  else
    match dumpBuildSeq obj lookup mode x y w h with
    | none => ⟨[], [uncaughtUnicodeEncodeError], none⟩
    | some sequence =>
      let o := output.getD (lookup ++ [46, 111, 115, 99])
      if dryRun then
        ⟨[echoLine (lit "Would write " ++ natStr sequence.length ++ lit " bytes to " ++ o)],
         [], none⟩
      else
        ⟨[echoLine (lit "Saved to: " ++ o ++ lit " (" ++ natStr sequence.length ++
           lit " bytes)")], [], some (o, sequence)⟩

/-- Embedding of the emission phase of cmd_decode (main.py lines 256-330)
on the already-read file content: parse, metadata block (error stream,
shown under info or verbose), payload decode with its two failure
messages, the dry-run report, and the payload written to a file, or to
standard output (raw bytes, or text through click.echo). -/
def cmdDecode (verbose dryRun info raw : Bool) (content : List Nat)
    (output : Option (List Nat)) : Eff :=
  match parseContent content with
  | Except.error e => ⟨[], [echoLine (lit "Error: " ++ e)], none⟩
  | Except.ok fr =>
    let metas :=
      if info || verbose then
        [lit "Plugin:   " ++ fr.plugin,
         lit "Mode:     " ++ fr.mode ++ lit " (" ++
           (if fr.mode = [65] then lit "absolute" else lit "relative") ++ lit ")",
         lit "Position: (" ++ fr.xs ++ [44, 32] ++ fr.ys ++ [41],
         lit "Size:     " ++ fr.ws ++ [120] ++ fr.hs,
         lit "Payload:  " ++ natStr fr.enc.length ++ lit " chars (base94)"].map echoLine
      else []
    if info then ⟨[], metas, none⟩
    else
      match decode fr.enc with
      | none =>
        ⟨[], metas ++ [echoLine
          (lit "Error: Failed to decode payload: bytes must be in range(0, 256)")], none⟩
      | some db =>
        let dline :=
          if verbose then [echoLine (lit "Decoded:  " ++ natStr db.length ++ lit " bytes")]
          else []
        if raw then
          if dryRun then
            ⟨[echoLine (lit "Would write " ++ natStr db.length ++ lit " bytes to " ++
               output.getD (lit "stdout"))], metas ++ dline, none⟩
          else
            match output with
            | some o =>
              ⟨[], metas ++ dline ++ [echoLine (lit "Saved to: " ++ o ++ lit " (" ++
                 natStr db.length ++ lit " bytes)")], some (o, db)⟩
            | none => ⟨[db], metas ++ dline, none⟩
        else
          match utf8Decode db with
          | none =>
            ⟨[], metas ++ [echoLine (lit
              "Error: Failed to decode payload: Payload is not valid UTF-8 text. Use --raw for binary data.")],
             none⟩
          | some txt =>
            if dryRun then
              ⟨[echoLine (lit "Would write " ++ natStr db.length ++ lit " bytes to " ++
                 output.getD (lit "stdout"))], metas ++ dline, none⟩
            else
              match output with
              | some o =>
                ⟨[], metas ++ dline ++ [echoLine (lit "Saved to: " ++ o ++ lit " (" ++
                   natStr txt.length ++ lit " bytes)")], some (o, txt)⟩
              | none => ⟨[echoLine txt], metas ++ dline, none⟩

/-- C6 counterexample: under dry-run, the run command with verbose enabled
writes extra diagnostic lines (Plugin, Mode, Payload) to standard output —
click.echo without err=True — so enabling verbose does alter the bytes on
standard output for the same inputs.  The concrete inputs: lookup name s,
producer payload t, mode R, defaults 0 0 40 20, not inside tmux. -/
theorem verbose_stdout_cx :
    (cmdRun true true false [115] ⟨some [116], none, none, none⟩ [82] 0 0 40 20).out ≠
    (cmdRun false true false [115] ⟨some [116], none, none, none⟩ [82] 0 0 40 20).out := by
  decide

/-- C6 amended: when dry-run is disabled, the bytes written to standard
output by the run command are identical under verbose and non-verbose
(verbose adds its byte-count line to the error stream only); and the standard
output of the decode command never depends on verbose in any mode.  Under
dry-run, the verbose diagnostics of the run command do go to standard output. -/
theorem verbose_stdout_pure :
    (∀ v₁ v₂ insideTmux lookup obj mode x y w h,
      (cmdRun v₁ false insideTmux lookup obj mode x y w h).out =
      (cmdRun v₂ false insideTmux lookup obj mode x y w h).out) ∧
    (∀ v₁ v₂ dryRun info raw content output,
      (cmdDecode v₁ dryRun info raw content output).out =
      (cmdDecode v₂ dryRun info raw content output).out) := by
  constructor
  · intro v₁ v₂ insideTmux lookup obj mode x y w h
    by_cases hc : obj.payload = none ∧ obj.payloadBytes = none
    · simp [cmdRun, hc]
    · cases hs : runBuildSeq obj lookup mode x y w h with
      | none => simp [cmdRun, hc, hs]
      | some seq => simp [cmdRun, hc, hs]
  · intro v₁ v₂ dryRun info raw content output
    cases hp : parseContent content with
    | error e => simp [cmdDecode, hp]
    | ok fr =>
      cases info with
      | true => simp [cmdDecode, hp]
      | false =>
        cases hd : decode fr.enc with
        | none => simp [cmdDecode, hp, hd]
        | some db =>
          cases raw with
          | true => cases dryRun <;> cases output <;> simp [cmdDecode, hp, hd]
          | false =>
            cases hu : utf8Decode db with
            | none => simp [cmdDecode, hp, hd, hu]
            | some txt => cases dryRun <;> cases output <;> simp [cmdDecode, hp, hd, hu]

/-- C7 counterexample: with a producer text payload holding the lone
surrogate U+D800 (code point 55296), str.encode raises UnicodeEncodeError
inside the sequence construction (create_sequence calls encode_string),
cmd_dump propagates it uncaught, and no file is written although a payload
was present — refuting the claim that dump writes the frame to a file for
every producer output. -/
theorem dump_surrogate_cx :
    (⟨some [55296], none, none, none⟩ : PluginObj).payload ≠ none ∧
    (cmdDump true false [115] ⟨some [55296], none, none, none⟩
      none [82] 0 0 40 20).file = none := by
  decide

/-- C7 amended: with dry-run off, a payload present, and a sequence
construction that does not raise (the text payload UTF-8-encodes without
UnicodeEncodeError), cmd_dump writes to the file named by the output
option (default: lookup name plus .osc) exactly the frame that the cmd_run
construction builds for the same producer output and position options; the
construction is the same as in run, nothing was written to standard output
beyond the Saved-to notice, and the whole effect is independent of the
multiplexer environment signal — the frame is never tmux-wrapped.  A lone
surrogate in the text payload instead raises UnicodeEncodeError in both
constructions alike and no file is written. -/
theorem dump_unwrapped (insideTmux : Bool) (lookup : List Nat) (obj : PluginObj)
    (output : Option (List Nat)) (mode : List Nat) (x y w h : Int) (seq : List Nat)
    (hpay : ¬(obj.payload = none ∧ obj.payloadBytes = none))
    (hseq : runBuildSeq obj lookup mode x y w h = some seq) :
    (cmdDump insideTmux false lookup obj output mode x y w h).file =
      some (output.getD (lookup ++ [46, 111, 115, 99]), seq) ∧
    dumpBuildSeq obj lookup mode x y w h = runBuildSeq obj lookup mode x y w h ∧
    cmdDump insideTmux false lookup obj output mode x y w h =
      cmdDump false false lookup obj output mode x y w h := by
  have hsame : dumpBuildSeq obj lookup mode x y w h =
      runBuildSeq obj lookup mode x y w h := rfl
  refine ⟨?_, hsame, rfl⟩
  simp [cmdDump, hpay, hsame, hseq]

/-- Witness for dump_unwrapped: the dump of a producer result with text
payload t under lookup name s, default output name, mode R at 0 0 40 20,
inside tmux; the built sequence is the Activate frame over the encoded
byte 116. -/
theorem dump_unwrapped_witness :
    (cmdDump true false [115] ⟨some [116], none, none, none⟩ none [82] 0 0 40 20).file =
      some ((none : Option (List Nat)).getD ([115] ++ [46, 111, 115, 99]),
        activateFrame [115] [82] 0 0 40 20 (encode [116])) ∧
    dumpBuildSeq ⟨some [116], none, none, none⟩ [115] [82] 0 0 40 20 =
      runBuildSeq ⟨some [116], none, none, none⟩ [115] [82] 0 0 40 20 ∧
    cmdDump true false [115] ⟨some [116], none, none, none⟩ none [82] 0 0 40 20 =
      cmdDump false false [115] ⟨some [116], none, none, none⟩ none [82] 0 0 40 20 :=
  dump_unwrapped true [115] ⟨some [116], none, none, none⟩ none [82] 0 0 40 20
    (activateFrame [115] [82] 0 0 40 20 (encode [116])) (by simp) (by decide)

/-- Modelled from the spec: registry resolution is lookup by exact
case-sensitive name (discover_plugins and get_plugin are imported by
main.py but their module is not under src); the shadertoy producer module
is registered under the name shadertoy (code points of shadertoy). -/
def shadertoyLookupName : List Nat := [115, 104, 97, 100, 101, 114, 116, 111, 121]

/-- Embedding of the plugins/shadertoy.py producer result: payload is the
shader source text, plugin_name is set to the string shader (code points
115 104 97 100 101 114), plugin_args carries the resolved channel
options. -/
def shadertoyObj (src args : List Nat) : PluginObj :=
  ⟨some src, none, some [115, 104, 97, 100, 101, 114], some args⟩

/-- C10: for every shader source and channel arguments, the frame
constructions of both run and dump under the registry lookup name
shadertoy serialize the plugin_name field shader — the plugin_name
override set by the producer — and shader differs from the lookup name shadertoy. -/
theorem shadertoy_plugin_name_override (src args mode : List Nat) (x y w h : Int) :
    runBuildSeq (shadertoyObj src args) shadertoyLookupName mode x y w h =
      createSequence [115, 104, 97, 100, 101, 114] mode x y w h src ∧
    dumpBuildSeq (shadertoyObj src args) shadertoyLookupName mode x y w h =
      createSequence [115, 104, 97, 100, 101, 114] mode x y w h src ∧
    [115, 104, 97, 100, 101, 114] ≠ shadertoyLookupName :=
  ⟨rfl, rfl, by decide⟩
